import Mathlib

/-!
Verification development for the httpbox library: a shallow embedding of the
typed-error model (error.go), the error-translating handler (handler.go), the
middleware composer and access-logging middleware (middleware.go), the
request-body codec with validation hook (request_body.go), and the query/path
parameter helpers (request_param.go), together with theorems settling the
specified properties.
-/

namespace Httpbox

/-- A JSON value, as produced by encoding/json: used to model serialized
response bodies.  Objects keep their fields in order of appearance. -/
inductive JsonVal where
  | null : JsonVal
  | num : Int → JsonVal
  | str : String → JsonVal
  | obj : List (String × JsonVal) → JsonVal
deriving Repr

mutual

/-- A Go `error` interface value as it occurs in this library: the nil
interface, an opaque error (errors.New and friends), a wrapping error
(fmt.Errorf with the w verb, unwrapped by errors.As), the error returned by
encoding/json when a value cannot be serialized, and the library's own
`*httpbox.Error` (its five fields inlined, see `Error` below). -/
inductive GoError where
  | nilErr : GoError
  | basic : String → GoError
  | wrapped : String → GoError → GoError
  | unsupportedType : GoVal → GoError
  | httpErr : Int → String → GoVal → GoError → Bool → GoError

/-- A Go `any` value as it occurs in the `Details` field of `Error`: the nil
interface, a string, an integer, a channel (the canonical value encoding/json
cannot serialize), or an error value stored as `any`. -/
inductive GoVal where
  | nil : GoVal
  | str : String → GoVal
  | num : Int → GoVal
  | chan : Nat → GoVal
  | errv : GoError → GoVal

end

/-- The `Error` struct of error.go: `Code int`, `Message string`,
`Details any` (tag `json:details,omitempty`), `Err error` (tag `json:-`),
`Log bool` (tag `json:-`).  The nil interface values of Go are `GoVal.nil`
and `GoError.nilErr`. -/
structure Error where
  Code : Int
  Message : String
  Details : GoVal
  Err : GoError
  Log : Bool

/-- View of a `*httpbox.Error` as a Go `error` interface value. -/
def Error.toGoError (e : Error) : GoError :=
  .httpErr e.Code e.Message e.Details e.Err e.Log

/-- The `Error() string` method of error.go. -/
def Error.ErrorMsg (e : Error) : String :=
  e.Message

/-- The `ShouldLog() bool` method of error.go. -/
def Error.ShouldLog (e : Error) : Bool :=
  e.Log

/-- `ErrorOption` of error.go: a mutator applied to the error under
construction. -/
def ErrorOption : Type := Error → Error

/-- `NewError(code, message, opts...)` of error.go: builds the error with the
given code and message, `Log` false and the other fields nil, then applies
the options in order. -/
def NewError (code : Int) (message : String) (opts : List ErrorOption) : Error :=
  opts.foldl (fun e opt => opt e)
    { Code := code, Message := message, Details := .nil, Err := .nilErr, Log := false }

/-- `WithDetails` of error.go. -/
def WithDetails (details : GoVal) : ErrorOption :=
  fun e => { e with Details := details }

/-- `WithInternalError` of error.go. -/
def WithInternalError (internalErr : GoError) : ErrorOption :=
  fun e => { e with Err := internalErr }

/-- `WithLog` of error.go. -/
def WithLog : ErrorOption :=
  fun e => { e with Log := true }

/-- `errors.As(err, &httpErr)` specialised to the target type
`*httpbox.Error`: succeeds on a `*Error` or on any chain of wrapping errors
around one. -/
def asHttpError : GoError → Option Error
  | .httpErr c m d ie l => some ⟨c, m, d, ie, l⟩
  | .wrapped _ inner => asHttpError inner
  | _ => none

/-- encoding/json serialization of a Go `any` value stored in `Details`:
strings and numbers serialize to themselves, a nil interface to null, an
error value to an empty object (no exported fields), and a channel is not
serializable. -/
def serializeGoVal : GoVal → Option JsonVal
  | .nil => some .null
  | .str s => some (.str s)
  | .num n => some (.num n)
  | .chan _ => none
  | .errv _ => some (.obj [])

/-- encoding/json marshalling of an `Error` value under the struct tags of
error.go: field `code`, then `message`, then `details` only when the
`Details` interface is non-nil (omitempty); `Err` and `Log` carry the
json tag of a dash and are never serialized.  Fails with the
unsupported-type error when `Details` holds a non-serializable value. -/
def marshalError (e : Error) : Except GoError JsonVal :=
  match e.Details with
  | .nil => .ok (.obj [("code", .num e.Code), ("message", .str e.Message)])
  | d =>
    match serializeGoVal d with
    | some dv => .ok (.obj [("code", .num e.Code), ("message", .str e.Message), ("details", dv)])
    | none => .error (.unsupportedType d)

mutual

/-- Plain text encoding of a JSON value, modelling the bytes produced by
encoding/json (string escaping elided): used only to measure the byte count
a write returns. -/
def jsonEncode : JsonVal → String
  | .null => "null"
  | .num n => toString n
  | .str s => "\x22" ++ s ++ "\x22"
  | .obj fs => "\x7b" ++ jsonEncodeFields fs ++ "\x7d"

/-- Comma-separated encoding of the fields of a JSON object. -/
def jsonEncodeFields : List (String × JsonVal) → String
  | [] => ""
  | [(k, v)] => "\x22" ++ k ++ "\x22:" ++ jsonEncode v
  | (k, v) :: rest => "\x22" ++ k ++ "\x22:" ++ jsonEncode v ++ "," ++ jsonEncodeFields rest

end

/-- A chunk of bytes handed to a response writer's Write method: either raw
bytes or an encoded JSON document (Encoder.Encode appends a newline). -/
inductive Chunk where
  | raw : String → Chunk
  | json : JsonVal → Chunk

/-- The byte length of a chunk, which is what a successful Write returns. -/
def Chunk.size : Chunk → Nat
  | .raw s => s.length
  | .json v => (jsonEncode v).length + 1

/-- An http.ResponseWriter as used by this library: either the transport's
base sink (recording the effective status — first WriteHeader wins, later
calls are superfluous —, every status ever passed to WriteHeader, the
Content-Type header and the body chunks in order), or the
`accessResponseWriter` wrapper of middleware.go, which embeds an underlying
writer and records the last status code written and the cumulative size of
the writes. -/
inductive ResponseWriter where
  | base : Option Int → List Int → Option String → List Chunk → ResponseWriter
  | access : ResponseWriter → Int → Nat → ResponseWriter

/-- A base response sink in its initial state. -/
def freshWriter : ResponseWriter :=
  .base none [] none []

/-- `w.Header().Set("Content-Type", ct)`: the wrapper forwards header access
to the embedded writer, so the header lands on the base sink. -/
def ResponseWriter.setContentType : ResponseWriter → String → ResponseWriter
  | .base st hist _ body, newCt => .base st hist (some newCt) body
  | .access u sc bs, newCt => .access (u.setContentType newCt) sc bs

/-- `w.WriteHeader(code)`: the base sink keeps the first status written and
records every call; the access wrapper of middleware.go records the status
and forwards. -/
def ResponseWriter.writeHeader : ResponseWriter → Int → ResponseWriter
  | .base st hist ct body, code =>
    .base (match st with | some s => some s | none => some code) (hist ++ [code]) ct body
  | .access u _ bs, code => .access (u.writeHeader code) code bs

/-- `w.Write(b)`: the base sink appends the chunk and returns its byte
count; the access wrapper forwards and adds the returned count to its
`bodySize`, per middleware.go. -/
def ResponseWriter.write : ResponseWriter → Chunk → ResponseWriter × Nat
  | .base st hist ct body, ch => (.base st hist ct (body ++ [ch]), ch.size)
  | .access u sc bs, ch =>
    let r := u.write ch
    (.access r.1 sc (bs + r.2), r.2)

/-- A value carried by a structured-log attribute: integers, strings, Go
`any` values, Go error values and slog groups. -/
inductive LogVal where
  | int : Int → LogVal
  | nat : Nat → LogVal
  | str : String → LogVal
  | goval : GoVal → LogVal
  | goerr : GoError → LogVal
  | group : List (String × LogVal) → LogVal

/-- One record emitted through slog: a message and its key/value attrs. -/
structure LogRecord where
  msg : String
  attrs : List (String × LogVal)

/-- The observable state a handler acts on: the response writer and the
records emitted so far through the process logger. -/
structure World where
  writer : ResponseWriter
  logs : List LogRecord

/-- An inbound request: method, URL, remote address, path values and the
parsed query (a list of key/values pairs, as url.Values). -/
structure HttpRequest where
  method : String
  url : String
  remoteAddr : String
  pathValues : List (String × String)
  queryValues : List (String × List String)

/-- The `Handler` type of handler.go: a fallible handler receiving the
response sink (with the log sink threaded alongside) and the request, and
returning nil or an error. -/
def Handler : Type :=
  World → HttpRequest → World × Option GoError

/-- The `Middleware` type of middleware.go. -/
def Middleware : Type :=
  Handler → Handler

/-- `WriteJSON` of response.go, at the type it is used with in handleError:
set the Content-Type header, write the status, then encode the error; the
encoder marshals before writing, so a marshalling failure writes no body
bytes and is returned. -/
def WriteJSON (w : ResponseWriter) (code : Int) (data : Error) : ResponseWriter × Option GoError :=
  let w := w.setContentType "application/json"
  let w := w.writeHeader code
  match marshalError data with
  | .ok j => ((w.write (.json j)).1, none)
  | .error encErr => (w, some encErr)

/-- The sentinel message of handleError. -/
def failedDetailsMsg : String :=
  "failed to serialize error details"

/-- `handleError` of handler.go: narrow the failure with errors.As,
synthesizing a 500 "Unexpected error occurred" with the original failure as
cause and the log flag set when narrowing fails; write the error as JSON;
on a serialization failure overwrite Details with the sentinel, log the
failure together with the original cause, and retry the write once; finally
emit the error's own log record when its log flag is set.  The global slog
sink is modelled as the log list threaded through. -/
def handleError (w : ResponseWriter) (logs : List LogRecord) (e : GoError) :
    ResponseWriter × List LogRecord :=
  let httpErr : Error :=
    match asHttpError e with
    | some he => he
    | none => NewError 500 "Unexpected error occurred" [WithInternalError e, WithLog]
  match WriteJSON w httpErr.Code httpErr with
  | (w, none) =>
    if httpErr.Log then
      (w, logs ++ [⟨httpErr.Message,
        [("code", .int httpErr.Code), ("details", .goval httpErr.Details),
         ("error", .goerr httpErr.Err)]⟩])
    else (w, logs)
  | (w, some encErr) =>
    let httpErr := { httpErr with Details := .str failedDetailsMsg }
    let logs := logs ++ [⟨failedDetailsMsg,
      [("error", .goerr encErr), ("original_error", .goerr httpErr.Err)]⟩]
    let w := (WriteJSON w httpErr.Code httpErr).1
    if httpErr.Log then
      (w, logs ++ [⟨httpErr.Message,
        [("code", .int httpErr.Code), ("details", .goval httpErr.Details),
         ("error", .goerr httpErr.Err)]⟩])
    else (w, logs)

/-- `Handler.ServeHTTP` of handler.go: run the handler; on failure delegate
to handleError, otherwise do nothing further. -/
def Handler.ServeHTTP (h : Handler) (w : World) (r : HttpRequest) : World :=
  match h w r with
  | (w, some e) =>
    let res := handleError w.writer w.logs e
    ⟨res.1, res.2⟩
  | (w, none) => w

/-- `applyMiddlewares` of middleware.go: the loop runs i from the last index
down to 0 doing h = middlewares[i](h), i.e. it folds over the reversed list
with the handler as the accumulator. -/
def applyMiddlewares (h : Handler) (middlewares : List Middleware) : Handler :=
  middlewares.reverse.foldl (fun acc m => m acc) h

/-- `Handler.WithMiddlewares` of handler.go. -/
def Handler.WithMiddlewares (h : Handler) (middlewares : List Middleware) : Handler :=
  applyMiddlewares h middlewares

/-- `newAccessResponseWriter` of middleware.go: wraps a sink with the status
initialised to http.StatusOK and the body size to zero. -/
def newAccessResponseWriter (w : ResponseWriter) : ResponseWriter :=
  .access w 200 0

/-- Reading the fields of the access wrapper after the inner handler ran,
and recovering the underlying sink; the fallback branch is never reached
when the writer is the wrapper the middleware itself installed. -/
def readAccess : ResponseWriter → ResponseWriter × Int × Nat
  | .access u sc bs => (u, sc, bs)
  | w => (w, 200, 0)

/-- `AccessLogMiddleware` of middleware.go: wrap the sink, delegate to the
next handler, then emit one Access record with the request group (method,
url, remote_addr) and the response group (status, body_size), and return
the inner handler's error unchanged. -/
def AccessLogMiddleware : Middleware :=
  fun h => fun w r =>
    let arw := newAccessResponseWriter w.writer
    let res := h ⟨arw, w.logs⟩ r
    let fin := readAccess res.1.writer
    let record : LogRecord := ⟨"Access",
      [("req", .group [("method", .str r.method), ("url", .str r.url),
         ("remote_addr", .str r.remoteAddr)]),
       ("res", .group [("status", .int fin.2.1), ("body_size", .nat fin.2.2)])]⟩
    (⟨fin.1, res.1.logs ++ [record]⟩, res.2)

/-- The `fromQuery` constant of request_param.go (`paramFrom` is a string
type, so it is modelled as a string). -/
def fromQuery : String :=
  "URL query string"

/-- The `fromPath` constant of request_param.go. -/
def fromPath : String :=
  "URL path"

/-- The `Param` struct of request_param.go; the zero value `Param\x7b\x7d`
has all three fields empty. -/
structure Param where
  from_ : String
  name : String
  value : String

/-- `url.Values.Get(name)`: the first value associated with the key, or the
empty string when the key is absent or has no values. -/
def queryGet (q : List (String × List String)) (name : String) : String :=
  match q.find? (fun p => p.1 == name) with
  | some (_, v :: _) => v
  | _ => ""

/-- `Param.newError` of request_param.go: a 400 error whose message is
fmt.Sprintf("parameter %q from %s %s", p.name, p.from, msg), returned as a
Go error value (the %q quoting is modelled without escaping). -/
def Param.newError (p : Param) (msg : String) : GoError :=
  (NewError 400 ("parameter \x22" ++ p.name ++ "\x22 from " ++ p.from_ ++ " " ++ msg) []).toGoError

/-- `NewQueryParam` of request_param.go. -/
def NewQueryParam (r : HttpRequest) (name : String) : Param :=
  ⟨fromQuery, name, queryGet r.queryValues name⟩

/-- `NewPathParam` of request_param.go. -/
def NewPathParam (r : HttpRequest) (name : String) : Param :=
  ⟨fromPath, name,
    match r.pathValues.find? (fun p => p.1 == name) with
    | some kv => kv.2
    | none => ""⟩

/-- `NewDefaultQueryParam` of request_param.go. -/
def NewDefaultQueryParam (r : HttpRequest) (name defaultValue : String) : Param :=
  let p := NewQueryParam r name
  if p.value = "" then ⟨p.from_, p.name, defaultValue⟩ else p

/-- `NewRequiredQueryParam` of request_param.go: an empty value yields the
zero Param and the "is required" error. -/
def NewRequiredQueryParam (r : HttpRequest) (name : String) : Param × Option GoError :=
  let p := NewQueryParam r name
  if p.value = "" then (⟨"", "", ""⟩, some (p.newError "is required"))
  else (p, none)

/-- One item of a structured-text input stream: the next well-formed
document, or a syntax error the decoder reports with the given message. -/
inductive StreamItem where
  | val : JsonVal → StreamItem
  | bad : String → StreamItem

/-- A request body: the sequence of documents the decoder can read. -/
def ByteStream : Type :=
  List StreamItem

/-- One call of Decoder.Decode of encoding/json or encoding/xml, generic in
the target type through `unmarshal` (how a document populates a value of
type T): per its documentation it reads the next document of the input, and
only that document; an empty stream yields io.EOF, a syntax error or an
unmarshalling failure yields that error. -/
def decodeNext {T : Type} (unmarshal : JsonVal → Except GoError T) :
    ByteStream → Except GoError (T × ByteStream)
  | [] => .error (.basic "EOF")
  | .bad m :: _ => .error (.basic m)
  | .val jv :: rest =>
    match unmarshal jv with
    | .ok v => .ok (v, rest)
    | .error e => .error e

/-- `verifyValidator` of request_body.go: probe the value for the Validator
capability; absent, report nil; present, call Validate once.  The
capability is the optional `validate` argument; a pointer receiver's
in-place mutation is modelled by returning the updated value alongside the
error. -/
def verifyValidator {T : Type} (validate : Option (T → T × Option GoError)) (v : T) :
    T × Option GoError :=
  match validate with
  | none => (v, none)
  | some f => f v

/-- `ReadJSON` of request_body.go: decode one document into T (zero value
`z`, unmarshalling behaviour `unmarshal`), wrapping a decoding failure as a
400 "invalid JSON body" with the parse error as details; then run the
optional validator, propagating its failure unwrapped.  The reader is
threaded and returned so that consumption is observable. -/
def ReadJSON {T : Type} (unmarshal : JsonVal → Except GoError T)
    (validate : Option (T → T × Option GoError)) (z : T) (r : ByteStream) :
    (T × Option GoError) × ByteStream :=
  match decodeNext unmarshal r with
  | .error e =>
    ((z, some (NewError 400 "invalid JSON body" [WithDetails (.errv e)]).toGoError), r)
  | .ok (v, rest) =>
    match verifyValidator validate v with
    | (v, some e) => ((v, some e), rest)
    | (v, none) => ((v, none), rest)

/-- `ReadXML` of request_body.go: identical to ReadJSON except for the
message naming the format. -/
def ReadXML {T : Type} (unmarshal : JsonVal → Except GoError T)
    (validate : Option (T → T × Option GoError)) (z : T) (r : ByteStream) :
    (T × Option GoError) × ByteStream :=
  match decodeNext unmarshal r with
  | .error e =>
    ((z, some (NewError 400 "invalid XML body" [WithDetails (.errv e)]).toGoError), r)
  | .ok (v, rest) =>
    match verifyValidator validate v with
    | (v, some e) => ((v, some e), rest)
    | (v, none) => ((v, none), rest)

/-- Append one record to the observable log. -/
def addLog (w : World) (record : LogRecord) : World :=
  { w with logs := w.logs ++ [record] }

/-- An instrumented middleware used to observe execution order: it logs a
pre record, delegates, then logs a post record. -/
def traceMW (tag : String) : Middleware :=
  fun next => fun w r =>
    let res := next (addLog w ⟨tag ++ ":pre", []⟩) r
    (addLog res.1 ⟨tag ++ ":post", []⟩, res.2)

/-- An instrumented innermost handler that records its own execution. -/
def traceHandler (tag : String) : Handler :=
  fun w _ => (addLog w ⟨tag, []⟩, none)

/-- One interaction of a handler with its response writer. -/
inductive RWOp where
  | header : Int → RWOp
  | put : Chunk → RWOp

/-- Replay a sequence of writer interactions. -/
def runOps (w : ResponseWriter) : List RWOp → ResponseWriter
  | [] => w
  | .header c :: rest => runOps (w.writeHeader c) rest
  | .put ch :: rest => runOps (w.write ch).1 rest

/-- The handler that performs the writer interactions `(f r).1` and returns
the failure `(f r).2`: a canonical inner handler whose effect on the sink
is fully described by its op list. -/
def opsHandler (f : HttpRequest → List RWOp × Option GoError) : Handler :=
  fun w r => (⟨runOps w.writer (f r).1, w.logs⟩, (f r).2)

/-- The status an access wrapper holding status `sc` records after the
given interactions: the last explicitly written status, else `sc`. -/
def statusAfter (sc : Int) : List RWOp → Int
  | [] => sc
  | .header c :: rest => statusAfter c rest
  | .put _ :: rest => statusAfter sc rest

/-- The total byte count of the writes among the given interactions. -/
def writtenSize : List RWOp → Nat
  | [] => 0
  | .header _ :: rest => writtenSize rest
  | .put ch :: rest => ch.size + writtenSize rest

/-- Whether a sequence of interactions contains no WriteHeader call. -/
def noHeaderWrite (ops : List RWOp) : Bool :=
  ops.all (fun op => match op with | .header _ => false | .put _ => true)

theorem write_snd (w : ResponseWriter) (ch : Chunk) : (w.write ch).2 = ch.size := by
  induction w with
  | base st hist ct body => rfl
  | access u sc bs ih => simp [ResponseWriter.write, ih]

theorem runOps_access (ops : List RWOp) :
    ∀ (u : ResponseWriter) (sc : Int) (bs : Nat),
      runOps (ResponseWriter.access u sc bs) ops =
        ResponseWriter.access (runOps u ops) (statusAfter sc ops) (bs + writtenSize ops) := by
  induction ops with
  | nil => intro u sc bs; simp [runOps, statusAfter, writtenSize]
  | cons op rest ih =>
    intro u sc bs
    cases op with
    | header c =>
      simp [runOps, statusAfter, writtenSize, ResponseWriter.writeHeader, ih]
    | put ch =>
      simp [runOps, statusAfter, writtenSize, ResponseWriter.write, ih, write_snd]
      omega

theorem statusAfter_of_noHeader (ops : List RWOp) :
    ∀ sc : Int, noHeaderWrite ops = true → statusAfter sc ops = sc := by
  induction ops with
  | nil => intro sc _; rfl
  | cons op rest ih =>
    intro sc h
    cases op with
    | header c => simp [noHeaderWrite] at h
    | put ch =>
      simp [noHeaderWrite] at h
      exact ih sc (by simp [noHeaderWrite]; exact h)

/-- C1: for every Typed Error written to a client, the serialized response
body contains only the code, message and details fields; the internal cause
(Err) and the log flag are never serialized — the serialization does not
depend on them at all — and details is omitted entirely when absent rather
than being serialized as null. -/
theorem c1_serialized_fields (e : Error) (j : JsonVal) (h : marshalError e = .ok j) :
    ∃ fs, j = .obj fs
      ∧ (fs.map Prod.fst = ["code", "message"] ∨
         fs.map Prod.fst = ["code", "message", "details"])
      ∧ (e.Details = .nil → fs = [("code", .num e.Code), ("message", .str e.Message)])
      ∧ (e.Details ≠ .nil → ∃ dv, serializeGoVal e.Details = some dv ∧
          fs = [("code", .num e.Code), ("message", .str e.Message), ("details", dv)])
      ∧ (∀ ie l, marshalError { e with Err := ie, Log := l } = .ok j) := by
  obtain ⟨c, m, d, ie, l⟩ := e
  cases d with
  | nil =>
    refine ⟨[("code", .num c), ("message", .str m)], ?_, ?_, ?_, ?_, ?_⟩ <;>
      simp_all [marshalError, serializeGoVal]
  | str s =>
    refine ⟨[("code", .num c), ("message", .str m), ("details", .str s)], ?_, ?_, ?_, ?_, ?_⟩ <;>
      simp_all [marshalError, serializeGoVal]
  | num n =>
    refine ⟨[("code", .num c), ("message", .str m), ("details", .num n)], ?_, ?_, ?_, ?_, ?_⟩ <;>
      simp_all [marshalError, serializeGoVal]
  | chan k => simp [marshalError, serializeGoVal] at h
  | errv ge =>
    refine ⟨[("code", .num c), ("message", .str m), ("details", .obj [])], ?_, ?_, ?_, ?_, ?_⟩ <;>
      simp_all [marshalError, serializeGoVal]

/-- Witness for C1 at a concrete error without details: serialization
succeeds and yields exactly the code and message fields. -/
theorem c1_serialized_fields_witness :
    marshalError ⟨404, "not found", .nil, .nilErr, false⟩ =
      .ok (.obj [("code", .num 404), ("message", .str "not found")])
    ∧ ∃ fs, JsonVal.obj [("code", JsonVal.num 404), ("message", JsonVal.str "not found")] = .obj fs
      ∧ (fs.map Prod.fst = ["code", "message"] ∨
         fs.map Prod.fst = ["code", "message", "details"]) := by
  refine ⟨rfl, ?_⟩
  obtain ⟨fs, h1, h2, -⟩ := c1_serialized_fields ⟨404, "not found", .nil, .nilErr, false⟩
    (.obj [("code", .num 404), ("message", .str "not found")]) rfl
  exact ⟨fs, h1, h2⟩

/-- C2: for every failure value that is not and does not wrap a Typed
Error, handleError synthesizes a Typed Error with code 500 and message
"Unexpected error occurred", attaches the original failure as the private
cause, marks it for logging, and writes that synthesized error as the
response (and, the flag being set, emits its log record with the cause). -/
theorem c2_unexpected_error (e : GoError) (logs : List LogRecord)
    (h : asHttpError e = none) :
    NewError 500 "Unexpected error occurred" [WithInternalError e, WithLog] =
      ⟨500, "Unexpected error occurred", .nil, e, true⟩
    ∧ handleError freshWriter logs e =
      (.base (some 500) [500] (some "application/json")
         [.json (.obj [("code", .num 500), ("message", .str "Unexpected error occurred")])],
       logs ++ [⟨"Unexpected error occurred",
         [("code", .int 500), ("details", .goval .nil), ("error", .goerr e)]⟩]) := by
  refine ⟨rfl, ?_⟩
  simp [handleError, h, NewError, WithInternalError, WithLog, WriteJSON, marshalError,
    freshWriter, ResponseWriter.setContentType, ResponseWriter.writeHeader,
    ResponseWriter.write]

/-- Witness for C2: a plain errors.New failure is translated to the 500
response and logged as the cause. -/
theorem c2_unexpected_error_witness :
    handleError freshWriter [] (.basic "boom") =
      (.base (some 500) [500] (some "application/json")
         [.json (.obj [("code", .num 500), ("message", .str "Unexpected error occurred")])],
       [⟨"Unexpected error occurred",
         [("code", .int 500), ("details", .goval .nil), ("error", .goerr (.basic "boom"))]⟩]) :=
  (c2_unexpected_error (.basic "boom") [] rfl).2

/-- C3: the composed handler of applyMiddlewares and WithMiddlewares equals
the nested application with the first middleware outermost, so on a request
the pre-delegation logic runs first-to-last, then the handler, and the
post-delegation logic unwinds in reverse order. -/
theorem c3_middleware_order (h : Handler) (m : Middleware) (ms : List Middleware)
    (a b c : String) (w : World) (r : HttpRequest) :
    applyMiddlewares h [] = h
    ∧ Handler.WithMiddlewares h ms = applyMiddlewares h ms
    ∧ applyMiddlewares h (m :: ms) = m (applyMiddlewares h ms)
    ∧ ((applyMiddlewares (traceHandler c) [traceMW a, traceMW b]) w r).1.logs =
        w.logs ++ [⟨a ++ ":pre", []⟩, ⟨b ++ ":pre", []⟩, ⟨c, []⟩,
          ⟨b ++ ":post", []⟩, ⟨a ++ ":post", []⟩]
    ∧ ((applyMiddlewares (traceHandler c) [traceMW a, traceMW b]) w r).2 = none := by
  refine ⟨rfl, rfl, ?_, ?_, rfl⟩
  · simp [applyMiddlewares, List.foldl_append]
  · simp [applyMiddlewares, traceMW, traceHandler, addLog]

/-- C4: when the error's details cannot be serialized, handleError
overwrites Details with the fixed sentinel, emits exactly one log record
referencing both the serialization failure and the original cause, and
retries the write exactly once (two WriteHeader calls, one body chunk); the
final body has details equal to the sentinel and the status is the original
error's code. -/
theorem c4_sentinel_retry (e : Error) (logs : List LogRecord)
    (h : serializeGoVal e.Details = none) :
    handleError freshWriter logs e.toGoError =
      (.base (some e.Code) [e.Code, e.Code] (some "application/json")
         [.json (.obj [("code", .num e.Code), ("message", .str e.Message),
            ("details", .str failedDetailsMsg)])],
       logs ++ [⟨failedDetailsMsg,
           [("error", .goerr (.unsupportedType e.Details)),
            ("original_error", .goerr e.Err)]⟩]
         ++ (if e.Log then
              [⟨e.Message, [("code", .int e.Code),
                 ("details", .goval (.str failedDetailsMsg)),
                 ("error", .goerr e.Err)]⟩]
             else []))
    ∧ (∃! lr : LogRecord,
        lr ∈ ([⟨failedDetailsMsg,
            [("error", .goerr (.unsupportedType e.Details)),
             ("original_error", .goerr e.Err)]⟩]
          ++ (if e.Log then
               [⟨e.Message, [("code", .int e.Code),
                  ("details", .goval (.str failedDetailsMsg)),
                  ("error", .goerr e.Err)]⟩]
              else []) : List LogRecord)
        ∧ ("error", LogVal.goerr (.unsupportedType e.Details)) ∈ lr.attrs
        ∧ ("original_error", LogVal.goerr e.Err) ∈ lr.attrs) := by
  obtain ⟨c, m, d, ie, l⟩ := e
  cases d with
  | nil => simp [serializeGoVal] at h
  | str s => simp [serializeGoVal] at h
  | num n => simp [serializeGoVal] at h
  | errv ge => simp [serializeGoVal] at h
  | chan k =>
    constructor
    · cases l <;>
        simp [handleError, Error.toGoError, asHttpError, WriteJSON, marshalError,
          serializeGoVal, freshWriter, ResponseWriter.setContentType,
          ResponseWriter.writeHeader, ResponseWriter.write, failedDetailsMsg]
    · refine ⟨⟨failedDetailsMsg,
        [("error", .goerr (.unsupportedType (.chan k))),
         ("original_error", .goerr ie)]⟩, ?_, ?_⟩
      · simp
      · intro lr hlr
        obtain ⟨hmem, herr, horig⟩ := hlr
        rcases List.mem_append.mp hmem with hmem | hmem
        · simpa using hmem
        · cases l with
          | false => simp at hmem
          | true =>
            simp at hmem
            subst hmem
            simp at horig

/-- Witness for C4: the non-serializable-details scenario of the
handler tests (a channel in Details) yields the sentinel body at the
original 400 status and the single serialization-failure record. -/
theorem c4_sentinel_retry_witness :
    handleError freshWriter [] (Error.toGoError ⟨400, "test error", .chan 0, .nilErr, false⟩) =
      (.base (some 400) [400, 400] (some "application/json")
         [.json (.obj [("code", .num 400), ("message", .str "test error"),
            ("details", .str failedDetailsMsg)])],
       [⟨failedDetailsMsg,
           [("error", .goerr (.unsupportedType (.chan 0))),
            ("original_error", .goerr .nilErr)]⟩]) := by
  have h := (c4_sentinel_retry ⟨400, "test error", .chan 0, .nilErr, false⟩ [] rfl).1
  simpa using h

/-- C9: a request through AccessLogMiddleware logs one Access record whose
status is the last status the inner handler explicitly wrote — 200, the
wrapper's initial value, when it never called WriteHeader — and whose body
size is the sum of the byte counts returned by the underlying sink's Write
calls; the wrapper forwards all operations to the underlying sink and the
inner handler's error is returned unchanged. -/
theorem c9_access_log (u : ResponseWriter) (logs : List LogRecord)
    (f : HttpRequest → List RWOp × Option GoError) (r : HttpRequest) :
    AccessLogMiddleware (opsHandler f) ⟨u, logs⟩ r =
      (⟨runOps u (f r).1,
        logs ++ [⟨"Access",
          [("req", .group [("method", .str r.method), ("url", .str r.url),
             ("remote_addr", .str r.remoteAddr)]),
           ("res", .group [("status", .int (statusAfter 200 (f r).1)),
             ("body_size", .nat (writtenSize (f r).1))])]⟩]⟩,
       (f r).2)
    ∧ (noHeaderWrite (f r).1 = true → statusAfter 200 (f r).1 = 200) := by
  constructor
  · simp [AccessLogMiddleware, opsHandler, newAccessResponseWriter, runOps_access, readAccess]
  · exact statusAfter_of_noHeader _ 200

/-- Witness for C9: an inner handler that writes two chunks and never calls
WriteHeader is logged with status 200 and the summed byte count. -/
theorem c9_access_log_witness :
    noHeaderWrite [RWOp.put (Chunk.raw "hello"), RWOp.put (Chunk.raw "!!")] = true
    ∧ statusAfter 200 [RWOp.put (Chunk.raw "hello"), RWOp.put (Chunk.raw "!!")] = 200
    ∧ writtenSize [RWOp.put (Chunk.raw "hello"), RWOp.put (Chunk.raw "!!")] = 7 :=
  ⟨rfl,
   (c9_access_log freshWriter []
      (fun _ => ([RWOp.put (Chunk.raw "hello"), RWOp.put (Chunk.raw "!!")], none))
      ⟨"GET", "/hello", "127.0.0.1:9", [], []⟩).2 rfl,
   rfl⟩

/-- C5: for every malformed input stream — one on which the decoder fails —
ReadJSON and ReadXML return a Typed Error with code 400, a message naming
the format, and details equal to the underlying parse error. -/
theorem c5_malformed_input (T : Type) (unmarshal : JsonVal → Except GoError T)
    (validate : Option (T → T × Option GoError)) (z : T) (r : ByteStream) (e : GoError)
    (h : decodeNext unmarshal r = .error e) :
    NewError 400 "invalid JSON body" [WithDetails (.errv e)] =
      ⟨400, "invalid JSON body", .errv e, .nilErr, false⟩
    ∧ NewError 400 "invalid XML body" [WithDetails (.errv e)] =
      ⟨400, "invalid XML body", .errv e, .nilErr, false⟩
    ∧ ReadJSON unmarshal validate z r =
        ((z, some (Error.toGoError ⟨400, "invalid JSON body", .errv e, .nilErr, false⟩)), r)
    ∧ ReadXML unmarshal validate z r =
        ((z, some (Error.toGoError ⟨400, "invalid XML body", .errv e, .nilErr, false⟩)), r) := by
  refine ⟨rfl, rfl, ?_, ?_⟩ <;>
    simp [ReadJSON, ReadXML, h, NewError, WithDetails]

/-- Witness for C5: a stream whose next token is a syntax error yields the
400 invalid-JSON-body error carrying that parse error. -/
theorem c5_malformed_input_witness :
    ReadJSON (fun jv => Except.ok jv) none JsonVal.null [StreamItem.bad "unexpected token"] =
      ((JsonVal.null,
        some (Error.toGoError
          ⟨400, "invalid JSON body", .errv (.basic "unexpected token"), .nilErr, false⟩)),
       [StreamItem.bad "unexpected token"]) :=
  (c5_malformed_input JsonVal (fun jv => Except.ok jv) none JsonVal.null
    [StreamItem.bad "unexpected token"] (.basic "unexpected token") rfl).2.2.1

/-- C6: on a successfully decoded value, ReadJSON and ReadXML invoke the
Validate capability exactly once when present — the returned value and
failure are exactly one application of the validator, so a failure is
propagated as-is and an in-place mutation is reflected in the returned
value — and when absent the decoded value is returned unchanged. -/
theorem c6_validator (T : Type) (unmarshal : JsonVal → Except GoError T)
    (vf : T → T × Option GoError) (z : T) (r : ByteStream) (v : T) (rest : ByteStream)
    (h : decodeNext unmarshal r = .ok (v, rest)) :
    ReadJSON unmarshal (some vf) z r = (((vf v).1, (vf v).2), rest)
    ∧ ReadXML unmarshal (some vf) z r = (((vf v).1, (vf v).2), rest)
    ∧ ReadJSON unmarshal none z r = ((v, none), rest)
    ∧ ReadXML unmarshal none z r = ((v, none), rest) := by
  refine ⟨?_, ?_, ?_, ?_⟩ <;>
    simp only [ReadJSON, ReadXML, h, verifyValidator] <;>
    rcases hv : vf v with ⟨v2, _ | e⟩ <;> simp [hv]

/-- Witness for C6: a validator clamping a negative number to zero makes
ReadJSON return the clamped value, not the raw-decoded negative one. -/
theorem c6_validator_witness :
    ReadJSON
      (fun jv => match jv with
        | JsonVal.num n => Except.ok n
        | _ => Except.error (.basic "cannot unmarshal"))
      (some (fun n : Int => (if n < 0 then 0 else n, none)))
      0 [StreamItem.val (JsonVal.num (-5))] = ((0, none), []) := by
  have h := (c6_validator Int
    (fun jv => match jv with
      | JsonVal.num n => Except.ok n
      | _ => Except.error (.basic "cannot unmarshal"))
    (fun n : Int => (if n < 0 then 0 else n, none))
    0 [StreamItem.val (JsonVal.num (-5))] (-5) [] rfl).1
  rw [h]
  norm_num

/-- Counterexample to C7: on a stream of two documents ReadJSON succeeds
after consuming only the first one, so input remains unread after a
successful decode, contrary to the claim that the entire stream is read. -/
theorem c7_counterexample :
    (ReadJSON (fun jv => Except.ok jv) none JsonVal.null
        [StreamItem.val (JsonVal.num 1), StreamItem.val (JsonVal.num 2)]).1.2 = none
    ∧ (ReadJSON (fun jv => Except.ok jv) none JsonVal.null
        [StreamItem.val (JsonVal.num 1), StreamItem.val (JsonVal.num 2)]).2 =
        [StreamItem.val (JsonVal.num 2)]
    ∧ [StreamItem.val (JsonVal.num 2)] ≠ ([] : ByteStream) :=
  ⟨rfl, rfl, by simp⟩

/-- C7 as amended: ReadJSON and ReadXML decode exactly the next document of
the input stream; any input following that first document is left unread. -/
theorem c7_single_document (T : Type) (unmarshal : JsonVal → Except GoError T)
    (validate : Option (T → T × Option GoError)) (z : T) (jv : JsonVal)
    (rest : ByteStream) (v : T) (h : unmarshal jv = .ok v) :
    (ReadJSON unmarshal validate z (StreamItem.val jv :: rest)).2 = rest
    ∧ (ReadXML unmarshal validate z (StreamItem.val jv :: rest)).2 = rest := by
  have hd : decodeNext unmarshal (StreamItem.val jv :: rest) = .ok (v, rest) := by
    simp [decodeNext, h]
  constructor <;>
    simp only [ReadJSON, ReadXML, hd] <;>
    rcases hv : verifyValidator validate v with ⟨v2, _ | e⟩ <;> simp [hv]

/-- Witness for C7's amended statement: decoding a two-document stream
leaves the second document in place. -/
theorem c7_single_document_witness :
    (ReadJSON (fun jv => Except.ok jv) none JsonVal.null
        [StreamItem.val (JsonVal.num 7), StreamItem.val (JsonVal.str "rest")]).2 =
      [StreamItem.val (JsonVal.str "rest")] :=
  (c7_single_document JsonVal (fun jv => Except.ok jv) none JsonVal.null
    (JsonVal.num 7) [StreamItem.val (JsonVal.str "rest")] (JsonVal.num 7) rfl).1

/-- C8: for every request in which the named query parameter is absent,
NewRequiredQueryParam returns a Typed Error with code 400 whose message
contains both the parameter name and the phrase "is required". -/
theorem c8_required_param_absent (r : HttpRequest) (name : String)
    (h : r.queryValues.find? (fun p => p.1 == name) = none) :
    NewRequiredQueryParam r name =
      (⟨"", "", ""⟩, some (.httpErr 400
        ("parameter \x22" ++ (name ++ "\x22 from URL query string is required"))
        .nil .nilErr false))
    ∧ (∃ pre post,
        "parameter \x22" ++ (name ++ "\x22 from URL query string is required") =
          pre ++ name ++ post)
    ∧ (∃ pre post,
        "parameter \x22" ++ (name ++ "\x22 from URL query string is required") =
          pre ++ "is required" ++ post) := by
  refine ⟨?_, ?_, ?_⟩
  · simp [NewRequiredQueryParam, NewQueryParam, queryGet, h, Param.newError, NewError,
      Error.toGoError, fromQuery, String.append_assoc]
  · exact ⟨"parameter \x22", "\x22 from URL query string is required",
      by simp [String.append_assoc]⟩
  · refine ⟨"parameter \x22" ++ (name ++ "\x22 from URL query string "), "", ?_⟩
    simp [String.append_assoc, String.append_empty]

/-- Witness for C8: a request with an empty query map and the parameter
name q. -/
theorem c8_required_param_absent_witness :
    NewRequiredQueryParam ⟨"GET", "/items", "127.0.0.1:9", [], []⟩ "q" =
      (⟨"", "", ""⟩, some (.httpErr 400
        ("parameter \x22" ++ ("q" ++ "\x22 from URL query string is required"))
        .nil .nilErr false)) :=
  (c8_required_param_absent ⟨"GET", "/items", "127.0.0.1:9", [], []⟩ "q" rfl).1

/-- C10: NewRequiredQueryParam treats a query parameter whose value is the
empty string — in particular one present with an empty value — exactly like
an absent one: it returns the zero Param value and the 400 "is required"
Typed Error, the same result an absent parameter produces. -/
theorem c10_empty_like_absent (r1 r2 : HttpRequest) (name : String)
    (h1 : queryGet r1.queryValues name = "")
    (h2 : r2.queryValues.find? (fun p => p.1 == name) = none) :
    NewRequiredQueryParam r1 name =
      (⟨"", "", ""⟩, some ((Param.mk fromQuery name "").newError "is required"))
    ∧ NewRequiredQueryParam r1 name = NewRequiredQueryParam r2 name := by
  have e1 : NewRequiredQueryParam r1 name =
      (⟨"", "", ""⟩, some ((Param.mk fromQuery name "").newError "is required")) := by
    simp [NewRequiredQueryParam, NewQueryParam, h1]
  have e2 : NewRequiredQueryParam r2 name =
      (⟨"", "", ""⟩, some ((Param.mk fromQuery name "").newError "is required")) := by
    simp [NewRequiredQueryParam, NewQueryParam, queryGet, h2]
  exact ⟨e1, e1.trans e2.symm⟩

/-- Witness for C10: the parameter q present with the single value ""
produces the same zero Param and required error as the request without q at
all. -/
theorem c10_empty_like_absent_witness :
    NewRequiredQueryParam ⟨"GET", "/items", "127.0.0.1:9", [], [("q", [""])]⟩ "q" =
      (⟨"", "", ""⟩, some ((Param.mk fromQuery "q" "").newError "is required"))
    ∧ NewRequiredQueryParam ⟨"GET", "/items", "127.0.0.1:9", [], [("q", [""])]⟩ "q" =
      NewRequiredQueryParam ⟨"GET", "/items", "127.0.0.1:9", [], []⟩ "q" :=
  c10_empty_like_absent
    ⟨"GET", "/items", "127.0.0.1:9", [], [("q", [""])]⟩
    ⟨"GET", "/items", "127.0.0.1:9", [], []⟩ "q" rfl rfl

end Httpbox
